import Mathlib

/-!
# Verification of the trade-notification coordinator and feed registry

A shallow embedding, in Lean 4, of the core of a Rust service that watches an
exchange's per-symbol trade streams and notifies chat subscribers of trades
whose notional value exceeds a threshold.  The embedded functions mirror,
item by item, the Rust sources:

* `src/hyperliquid/mod.rs` — `WsTrade` and `WsTrade::notional_usd`;
* `src/database.rs` — the subscription table operations (the SQL statements
  are modelled over an in-memory list of rows);
* `src/hyperliquid/websocket.rs` — `WebSocketManager::start_trade_feed`,
  `WebSocketManager::stop_trade_feed`, and the reconnection backoff of the
  supervisor task;
* `src/coordinator.rs` — `TradeCoordinator::process_trade`,
  `TradeCoordinator::check_coin_subscription`,
  `TradeCoordinator::start_websocket_for_coin`;
* `src/telegram.rs` — the side label of `send_trade_notification`.

Decimal strings parsed to `f64` are modelled as exact rationals; the
`rand::random::<f64>()` draw is an explicit rational parameter in `[0,1)`.
Registry maps (`HashMap` keyed by symbol) are modelled by their key lists,
and the spawned supervisor tasks by a list of the symbols whose connection
task is live.
-/

namespace HlBot

/-- Embedding of Rust's `str::to_uppercase` (ASCII range, which is all the
service's tickers use): uppercase every character. -/
def toUpperStr (s : String) : String := ⟨s.data.map Char.toUpper⟩

/-- `WsTrade` from `src/hyperliquid/mod.rs`.  `px`/`sz` are the string-encoded
decimals; we carry their parsed numeric values as exact rationals. -/
structure WsTrade where
  coin : String
  side : String
  px : ℚ
  sz : ℚ
deriving DecidableEq, Repr

/-- `WsTrade::notional_usd`: price times size. -/
def WsTrade.notional_usd (t : WsTrade) : ℚ := t.px * t.sz

/-- Embedding of `anyhow::Result<()>`: success, or an error message. -/
inductive RustResult where
  | ok : RustResult
  | err (msg : String) : RustResult
deriving DecidableEq, Repr

/-- A row of the `user_subscriptions` table (`UserSubscription` in
`src/database.rs`). -/
structure UserSubscription where
  telegram_user_id : Int
  telegram_chat_id : Int
  coin : String
deriving DecidableEq, Repr

/-- `Database::add_subscription`: `INSERT ... ON CONFLICT (telegram_user_id,
coin) DO NOTHING`, binding `coin.to_uppercase()`.  Returns the new table and
`rows_affected() > 0`. -/
def add_subscription (table : List UserSubscription) (uid chat : Int) (coin : String) :
    List UserSubscription × Bool :=
  let c := toUpperStr coin
  if table.any fun r => r.telegram_user_id == uid && r.coin == c then
    (table, false)
  else
    (table ++ [⟨uid, chat, c⟩], true)

/-- `Database::remove_subscription`: `DELETE ... WHERE telegram_user_id = $1
AND coin = $2`, binding `coin.to_uppercase()`.  Returns the new table and
`rows_affected() > 0`. -/
def remove_subscription (table : List UserSubscription) (uid : Int) (coin : String) :
    List UserSubscription × Bool :=
  let c := toUpperStr coin
  (table.filter fun r => !(r.telegram_user_id == uid && r.coin == c),
   table.any fun r => r.telegram_user_id == uid && r.coin == c)

/-- `Database::get_subscribers_for_coin`: `SELECT ... WHERE coin = $1`,
binding `coin.to_uppercase()`. -/
def get_subscribers_for_coin (table : List UserSubscription) (coin : String) :
    List UserSubscription :=
  let c := toUpperStr coin
  table.filter fun r => r.coin == c

/-- The shared feed state: the coordinator's `active_feeds` map keys, the
manager's `active_websockets` map keys, and the symbols whose spawned
supervisor task is currently live (one list entry per live task). -/
structure FeedState where
  active_feeds : List String
  ws_feeds : List String
  connections : List String
deriving DecidableEq, Repr

/-- `HashMap` key-set insert: inserting an existing key overwrites the value
and leaves the key set unchanged. -/
def insertKey (l : List String) (k : String) : List String :=
  if k ∈ l then l else l ++ [k]

/-- Result of `WebSocketManager::stop_trade_feed`: the updated state, the
shutdown signals sent, and the `anyhow::Result<()>`. -/
structure StopResult where
  state : FeedState
  signals : List String
  result : RustResult
deriving DecidableEq, Repr

/-- `WebSocketManager::stop_trade_feed` (`src/hyperliquid/websocket.rs`
lines 205–217): uppercase the coin; under the write lock remove its entry
from `active_websockets`; if one existed, send its shutdown signal and
return `Ok(())`, otherwise return `Err("no active ws for ...")`. -/
def stop_trade_feed (st : FeedState) (coin : String) : StopResult :=
  let c := toUpperStr coin
  if c ∈ st.ws_feeds then
    ⟨{ st with ws_feeds := st.ws_feeds.erase c }, [c], .ok⟩
  else
    ⟨st, [], .err ("no active ws for " ++ c)⟩

/-- Result of `WebSocketManager::start_trade_feed`: the updated state,
whether a supervisor task (with its fresh shutdown channel) was spawned,
and the `anyhow::Result` (`Ok` stands for `Ok(WebSocketHandle)`). -/
structure StartResult where
  state : FeedState
  spawned : Bool
  result : RustResult
deriving DecidableEq, Repr

/-- `WebSocketManager::start_trade_feed` (`src/hyperliquid/websocket.rs`
lines 56–135), as executed without interleaving: uppercase the coin; if
`active_websockets` already has the key, `Err("ws alr exists ...")`;
otherwise create the shutdown channel, spawn the supervisor task and insert
the handle.  (The non-atomic interleaved version is `raceStep` below.) -/
def start_trade_feed (st : FeedState) (coin : String) : StartResult :=
  let c := toUpperStr coin
  if c ∈ st.ws_feeds then
    ⟨st, false, .err ("ws alr exists for " ++ c)⟩
  else
    ⟨{ st with ws_feeds := insertKey st.ws_feeds c,
               connections := st.connections ++ [c] }, true, .ok⟩

/-- `TradeCoordinator::start_websocket_for_coin` (`src/coordinator.rs`
lines 162–186): uppercase the coin, call `start_trade_feed`; on `Ok` insert
the coin into the coordinator's own `active_feeds` map, on `Err` only log.
Returns the state and whether a feed was started. -/
def start_websocket_for_coin (st : FeedState) (coin : String) : FeedState × Bool :=
  let c := toUpperStr coin
  let r := start_trade_feed st c
  match r.result with
  | .ok => ({ r.state with active_feeds := insertKey r.state.active_feeds c }, r.spawned)
  | .err _ => (r.state, r.spawned)

/-- `TradeCoordinator::check_coin_subscription` (`src/coordinator.rs`
lines 146–160) — the registry `ensure`: uppercase the coin; if the
coordinator's `active_feeds` map has the key, return `Ok(())` doing nothing;
otherwise call `start_websocket_for_coin`.  The returned `Bool` records
whether a feed was started; the Rust function always returns `Ok`. -/
def check_coin_subscription (st : FeedState) (coin : String) : FeedState × Bool :=
  let c := toUpperStr coin
  if c ∈ st.active_feeds then (st, false)
  else start_websocket_for_coin st c

/-- The last lines of the supervisor task spawned by `start_trade_feed`
(`src/hyperliquid/websocket.rs` lines 116–118), run when the task exits
(graceful stop, retries exhausted, or shutdown): remove the coin — already
uppercase, it is the task's `coin_clone` — from `active_websockets`, and the
task itself ends.  The coordinator's `active_feeds` map is not touched. -/
def supervisor_exit (st : FeedState) (coin : String) : FeedState :=
  { st with ws_feeds := st.ws_feeds.erase coin,
            connections := st.connections.erase coin }

/-- The observable effects of one `process_trade` call: the arguments of the
`stop_trade_feed` calls made, and the chat ids to which a notification
dispatch task was spawned (one `tokio::spawn` per subscriber). -/
structure TradeEffects where
  stops : List String
  notifications : List Int
deriving DecidableEq, Repr

/-- `TradeCoordinator::process_trade` (`src/coordinator.rs` lines 97–144):
if the notional is below `min_trade_value_usd`, return at once; otherwise
look up the subscribers; if none, call `stop_trade_feed` (and on its success
remove the uppercased coin from `active_feeds`); otherwise spawn one
notification task per subscriber. -/
def process_trade (minValue : ℚ) (table : List UserSubscription) (st : FeedState)
    (t : WsTrade) : FeedState × TradeEffects :=
  if t.notional_usd < minValue then
    (st, ⟨[], []⟩)
  else
    let subs := get_subscribers_for_coin table t.coin
    if subs.isEmpty then
      let r := stop_trade_feed st t.coin
      match r.result with
      | .ok =>
          ({ r.state with active_feeds := r.state.active_feeds.erase (toUpperStr t.coin) },
           ⟨[t.coin], []⟩)
      | .err _ => (r.state, ⟨[t.coin], []⟩)
    else
      (st, ⟨[], subs.map fun s => s.telegram_chat_id⟩)

/-- `BASE_DELAY` in `start_trade_feed`'s supervisor task (ms). -/
def BASE_DELAY : ℕ := 1000

/-- `MAX_DELAY` in `start_trade_feed`'s supervisor task (ms). -/
def MAX_DELAY : ℕ := 30000

/-- `MAX_RETRIES` in `start_trade_feed`'s supervisor task. -/
def MAX_RETRIES : ℕ := 5

/-- The raw backoff delay computed at the bottom of the retry loop
(`src/hyperliquid/websocket.rs` line 108) when `retry_count = n`:
`min(BASE_DELAY * 2^n, MAX_DELAY)`.  After the n-th failed attempt the
counter has already been incremented to `n`. -/
def raw_delay (n : ℕ) : ℕ := min (BASE_DELAY * 2 ^ n) MAX_DELAY

/-- The jitter (line 109): `(delay as f64 * 0.1 * rand::random::<f64>()) as u64`,
with the random draw `r ∈ [0,1)` made explicit; the `as u64` cast truncates. -/
def jitter (n : ℕ) (r : ℚ) : ℕ := ⌊(raw_delay n : ℚ) * (1 / 10) * r⌋₊

/-- The delay actually slept (line 110): `delay + jitter`. -/
def total_delay (n : ℕ) (r : ℚ) : ℕ := raw_delay n + jitter n r

/-- State for the interleaved execution of two concurrent
`start_trade_feed` calls for the same coin: the manager's map keys, the
live supervisor tasks, and each caller's program counter
(0 = before the `contains_key` check, 1 = passed the check, 2 = has spawned
the task, 3 = inserted the handle and returned `Ok`, 4 = returned `Err`). -/
structure RaceState where
  ws_feeds : List String
  connections : List String
  pcs : List ℕ
deriving DecidableEq, Repr

/-- One atomic step of caller `i` inside `start_trade_feed` for `coin`
(already uppercase).  The function takes the read lock only for the
`contains_key` check (lines 63–68) and releases it before spawning the
supervisor task (line 75) and before taking the write lock to insert the
handle (lines 126–129); each of those is therefore a separate atomic step. -/
def raceStep (coin : String) (st : RaceState) (i : ℕ) : RaceState :=
  match st.pcs.get? i with
  | some 0 =>
      if coin ∈ st.ws_feeds then { st with pcs := st.pcs.set i 4 }
      else { st with pcs := st.pcs.set i 1 }
  | some 1 => { st with connections := st.connections ++ [coin], pcs := st.pcs.set i 2 }
  | some 2 => { st with ws_feeds := insertKey st.ws_feeds coin, pcs := st.pcs.set i 3 }
  | _ => st

/-- Run a schedule (a list of caller indices) of interleaved
`start_trade_feed` steps. -/
def raceRun (coin : String) (st : RaceState) (sched : List ℕ) : RaceState :=
  sched.foldl (raceStep coin) st

/-- The side label of `TelegramBot::send_trade_notification`
(`src/telegram.rs` line 94): `if side == "B" { "BUY" } else { "SELL" }`. -/
def side_text (side : String) : String := if side = "B" then "BUY" else "SELL"

/-- The message built by `TelegramBot::send_trade_notification`
(`src/telegram.rs` lines 96–102); the `{:.2}`-rendered notional is taken as
an opaque string argument. -/
def trade_message (coin side px amount : String) : String :=
  coin ++ " Trade Alert\n\nAmount: $" ++ amount ++ "\nType: " ++ side_text side
       ++ "\nPrice: $" ++ px

/-! ## Helper lemmas -/

lemma char_toUpper_idem (c : Char) : c.toUpper.toUpper = c.toUpper := by
  by_cases h : c.toNat ≥ 97 ∧ c.toNat ≤ 122
  · have hc : c.toUpper = Char.ofNat (c.toNat - 32) := by
      unfold Char.toUpper
      exact if_pos h
    obtain ⟨n, hn⟩ : ∃ n, c.toNat = n := ⟨_, rfl⟩
    rw [hc, hn]
    obtain ⟨h1, h2⟩ := h
    rw [hn] at h1 h2
    interval_cases n <;> decide
  · have hc : c.toUpper = c := by
      unfold Char.toUpper
      exact if_neg h
    simp [hc]

lemma toUpperStr_idem (s : String) : toUpperStr (toUpperStr s) = toUpperStr s := by
  unfold toUpperStr
  simp only [List.map_map]
  congr 1
  exact List.map_congr_left fun c _ => char_toUpper_idem c

lemma raw_delay_lb (n : ℕ) : 1000 ≤ raw_delay n := by
  unfold raw_delay BASE_DELAY MAX_DELAY
  have h2 : 1000 ≤ 1000 * 2 ^ n := Nat.le_mul_of_pos_right 1000 (Nat.pos_pow_of_pos n (by omega))
  omega

lemma total_delay_lt (n : ℕ) (r : ℚ) (h0 : 0 ≤ r) (h1 : r < 1) :
    (total_delay n r : ℚ) < (11 / 10) * (raw_delay n : ℚ) := by
  have hd : (1000 : ℚ) ≤ (raw_delay n : ℚ) := by exact_mod_cast raw_delay_lb n
  have hnn : (0 : ℚ) ≤ (raw_delay n : ℚ) * (1 / 10) * r :=
    mul_nonneg (mul_nonneg (Nat.cast_nonneg _) (by norm_num)) h0
  have hj : (jitter n r : ℚ) ≤ (raw_delay n : ℚ) * (1 / 10) * r := Nat.floor_le hnn
  have hpos : (0 : ℚ) < (raw_delay n : ℚ) * (1 / 10) := by
    have : (0 : ℚ) < (raw_delay n : ℚ) := by linarith
    positivity
  have hx : (raw_delay n : ℚ) * (1 / 10) * r < (raw_delay n : ℚ) * (1 / 10) := by
    have := (mul_lt_mul_left hpos).mpr h1
    simpa using this
  unfold total_delay
  push_cast
  linarith

lemma total_delay_step (n m : ℕ) (rn rm : ℚ) (h0 : 0 ≤ rn) (h1 : rn < 1)
    (hd : (11 / 10 : ℚ) * (raw_delay n : ℚ) ≤ (raw_delay m : ℚ)) :
    total_delay n rn ≤ total_delay m rm := by
  have hub := total_delay_lt n rn h0 h1
  have hlb : (raw_delay m : ℚ) ≤ (total_delay m rm : ℚ) := by
    exact_mod_cast Nat.le_add_right (raw_delay m) (jitter m rm)
  have hlt : (total_delay n rn : ℚ) < (total_delay m rm : ℚ) :=
    lt_of_lt_of_le (lt_of_lt_of_le hub hd) hlb
  exact le_of_lt (by exact_mod_cast hlt)

/-! ## Claim theorems -/

/-- C1: a trade whose notional (price × size) is strictly below the minimum
threshold is discarded by `process_trade` — no notification dispatch, no stop
call, and no change to the feed state; a trade at or above the threshold whose
symbol has a non-empty subscriber list produces exactly one notification
dispatch per subscriber (one spawned send per row returned by the lookup) and
no stop call. -/
theorem trade_filter_and_fanout (mv : ℚ) (table : List UserSubscription) (st : FeedState)
    (t : WsTrade) :
    (t.notional_usd < mv → process_trade mv table st t = (st, ⟨[], []⟩)) ∧
    (¬ t.notional_usd < mv → (get_subscribers_for_coin table t.coin).isEmpty = false →
      process_trade mv table st t =
        (st, ⟨[], (get_subscribers_for_coin table t.coin).map fun s => s.telegram_chat_id⟩) ∧
      (process_trade mv table st t).2.notifications.length
        = (get_subscribers_for_coin table t.coin).length) := by
  constructor
  · intro h
    unfold process_trade
    rw [if_pos h]
  · intro h h2
    unfold process_trade
    rw [if_neg h]
    simp [h2]

/-- C1 witness: with threshold $50000, the trade BTC px 100 sz 1 (notional
$100) is discarded leaving the state alone, and the trade BTC px 60000 sz 1
(notional $60000) with one BTC subscriber (chat 2) dispatches exactly to
chat 2. -/
theorem trade_filter_and_fanout_witness :
    process_trade 50000 [] ⟨["BTC"], ["BTC"], ["BTC"]⟩ ⟨"BTC", "B", 100, 1⟩
      = (⟨["BTC"], ["BTC"], ["BTC"]⟩, ⟨[], []⟩) ∧
    process_trade 50000 [⟨1, 2, "BTC"⟩] ⟨[], [], []⟩ ⟨"BTC", "B", 60000, 1⟩
      = (⟨[], [], []⟩, ⟨[], [2]⟩) := by
  constructor
  · exact (trade_filter_and_fanout 50000 [] ⟨["BTC"], ["BTC"], ["BTC"]⟩ ⟨"BTC", "B", 100, 1⟩).1
      (by norm_num [WsTrade.notional_usd])
  · have h := (trade_filter_and_fanout 50000 [⟨1, 2, "BTC"⟩] ⟨[], [], []⟩
      ⟨"BTC", "B", 60000, 1⟩).2 (by norm_num [WsTrade.notional_usd]) (by decide)
    rw [h.1]
    decide

/-- C2 counterexample: the claim says every trade whose symbol has zero
current subscribers triggers exactly one stop call; but `process_trade`
applies the notional filter first, so the below-threshold trade BTC px 100
sz 1 with an empty subscription table (zero subscribers for BTC) makes zero
stop calls. -/
theorem below_threshold_no_stop_counterexample :
    (get_subscribers_for_coin [] "BTC").isEmpty = true ∧
    (process_trade 50000 [] ⟨["BTC"], ["BTC"], ["BTC"]⟩ ⟨"BTC", "B", 100, 1⟩).2.stops
      = [] := by
  constructor
  · decide
  · unfold process_trade
    rw [if_pos (by norm_num [WsTrade.notional_usd])]

/-- C2 amended: for every trade whose notional is at or above the threshold
and whose symbol has zero current subscribers, `process_trade` makes exactly
one stop call on the registry for that symbol and zero notification
dispatches (a below-threshold trade is discarded before the subscriber
lookup and makes no stop call). -/
theorem stop_on_no_subscribers (mv : ℚ) (table : List UserSubscription) (st : FeedState)
    (t : WsTrade) (h1 : ¬ t.notional_usd < mv)
    (h2 : (get_subscribers_for_coin table t.coin).isEmpty = true) :
    (process_trade mv table st t).2.stops = [t.coin] ∧
    (process_trade mv table st t).2.notifications = [] := by
  unfold process_trade
  rw [if_neg h1]
  simp only [h2, if_true]
  cases hr : (stop_trade_feed st t.coin).result <;> simp [hr]

/-- C2 amended, witness: the above-threshold trade BTC px 60000 sz 1 with an
empty subscription table stops exactly the BTC feed and notifies nobody. -/
theorem stop_on_no_subscribers_witness :
    (process_trade 50000 [] ⟨["BTC"], ["BTC"], ["BTC"]⟩ ⟨"BTC", "B", 60000, 1⟩).2.stops
      = ["BTC"] ∧
    (process_trade 50000 [] ⟨["BTC"], ["BTC"], ["BTC"]⟩ ⟨"BTC", "B", 60000, 1⟩).2.notifications
      = [] :=
  stop_on_no_subscribers 50000 [] ⟨["BTC"], ["BTC"], ["BTC"]⟩ ⟨"BTC", "B", 60000, 1⟩
    (by norm_num [WsTrade.notional_usd]) (by decide)

/-- C3: the check-then-insert of `start_trade_feed` is NOT atomic — the
`contains_key` check runs under a read lock that is released before the
supervisor task is spawned and before the handle is inserted under a separate
write lock.  Interleaving two concurrent `start_trade_feed("BTC")` calls so
that both run their check first (schedule: caller 0 checks, caller 1 checks,
caller 0 spawns and inserts, caller 1 spawns and inserts) leaves TWO live
connection tasks for "BTC", with both callers returning `Ok` (pc 3),
violating the at-most-one-connection-per-symbol invariant the claim states. -/
theorem concurrent_start_race :
    raceRun "BTC" ⟨[], [], [0, 0]⟩ [0, 1, 0, 0, 1, 1]
      = ⟨["BTC"], ["BTC", "BTC"], [3, 3]⟩ := by decide

/-- C4 counterexample: the claim puts the delay after the 1st failed attempt
at `min(B*2^0, M) * (1 + j)` for some jitter factor `j` with `|j| ≤ 0.1`,
i.e. in [900, 1100] ms.  The code (with `B = BASE_DELAY = 1000`,
`M = MAX_DELAY = 30000`) sleeps `total_delay 1 r`; at random draw `r = 0`
that is 2000 ms, which no such `j` accounts for. -/
theorem backoff_formula_counterexample :
    total_delay 1 0 = 2000 ∧
    ¬ ∃ j : ℚ, |j| ≤ 1 / 10 ∧
        (total_delay 1 0 : ℚ) = ((min (BASE_DELAY * 2 ^ 0) MAX_DELAY : ℕ) : ℚ) * (1 + j) := by
  have h : total_delay 1 0 = 2000 := by
    unfold total_delay jitter raw_delay BASE_DELAY MAX_DELAY
    norm_num
  refine ⟨h, ?_⟩
  rintro ⟨j, hj, he⟩
  rw [h] at he
  have hm : ((min (BASE_DELAY * 2 ^ 0) MAX_DELAY : ℕ) : ℚ) = 1000 := by
    norm_num [BASE_DELAY, MAX_DELAY]
  rw [hm] at he
  rw [abs_le] at hj
  push_cast at he
  linarith [hj.2]

/-- C4 amended: the delay slept after the n-th failed attempt is
`min(BASE_DELAY * 2^n, MAX_DELAY)` (exponent n, not n−1, because the retry
counter is incremented before the delay is computed) plus a truncated
ADDITIVE jitter `⌊delay * 0.1 * r⌋` with random draw `r ∈ [0,1)`; hence the
total delay lies in `[d, 1.1·d)` for `d = min(BASE_DELAY * 2^n, MAX_DELAY)`
— never below the raw delay, strictly less than 10% above it. -/
theorem backoff_delay_bounds (n : ℕ) (r : ℚ) (h0 : 0 ≤ r) (h1 : r < 1) :
    total_delay n r = min (BASE_DELAY * 2 ^ n) MAX_DELAY + ⌊(raw_delay n : ℚ) * (1 / 10) * r⌋₊ ∧
    raw_delay n ≤ total_delay n r ∧
    (total_delay n r : ℚ) < (11 / 10) * (raw_delay n : ℚ) :=
  ⟨rfl, Nat.le_add_right _ _, total_delay_lt n r h0 h1⟩

/-- C4 amended, witness: at n = 1, r = 1/2 the bounds hold (the delay is
2000 + ⌊100⌋ = 2100 ∈ [2000, 2200)). -/
theorem backoff_delay_bounds_witness :
    total_delay 1 (1 / 2)
        = min (BASE_DELAY * 2 ^ 1) MAX_DELAY + ⌊(raw_delay 1 : ℚ) * (1 / 10) * (1 / 2)⌋₊ ∧
    raw_delay 1 ≤ total_delay 1 (1 / 2) ∧
    (total_delay 1 (1 / 2) : ℚ) < (11 / 10) * (raw_delay 1 : ℚ) :=
  backoff_delay_bounds 1 (1 / 2) (by norm_num) (by norm_num)

/-- C5: with the code's constants (BASE_DELAY = 1000 ms, MAX_DELAY = 30000 ms,
MAX_RETRIES = 5) a delay is slept after failed attempts 1 .. MAX_RETRIES − 1;
for any sequence of random draws in [0,1) the slept delays are non-decreasing
in the attempt number and every one of them is at most MAX_DELAY. -/
theorem backoff_monotone_and_capped (r : ℕ → ℚ) (h : ∀ k, 0 ≤ r k ∧ r k < 1) :
    (∀ n m, 1 ≤ n → n ≤ m → m ≤ MAX_RETRIES - 1 →
      total_delay n (r n) ≤ total_delay m (r m)) ∧
    (∀ n, 1 ≤ n → n ≤ MAX_RETRIES - 1 → total_delay n (r n) ≤ MAX_DELAY) := by
  constructor
  · intro n m hn hnm hm
    have hm4 : m ≤ 4 := by simpa [MAX_RETRIES] using hm
    have hm1 : 1 ≤ m := le_trans hn hnm
    interval_cases m <;> interval_cases n <;>
      first
        | exact le_refl _
        | exact total_delay_step _ _ _ _ (h _).1 (h _).2
            (by norm_num [raw_delay, BASE_DELAY, MAX_DELAY])
  · intro n hn1 hn4
    have hn4' : n ≤ 4 := by simpa [MAX_RETRIES] using hn4
    have hub := total_delay_lt n (r n) (h n).1 (h n).2
    have hr : (raw_delay n : ℚ) ≤ 16000 := by
      interval_cases n <;> norm_num [raw_delay, BASE_DELAY, MAX_DELAY]
    have hq : (total_delay n (r n) : ℚ) < 30000 := by linarith
    have hlt : total_delay n (r n) < 30000 := by exact_mod_cast hq
    simp only [MAX_DELAY]
    omega

/-- C5 witness: for the constant draw 1/2, the delay after failure 1 is at
most the delay after failure 3, and the delay after failure 4 is within the
cap. -/
theorem backoff_monotone_and_capped_witness :
    total_delay 1 (1 / 2) ≤ total_delay 3 (1 / 2) ∧
    total_delay 4 (1 / 2) ≤ MAX_DELAY := by
  have H := backoff_monotone_and_capped (fun _ => 1 / 2) (fun k => by norm_num)
  exact ⟨H.1 1 3 (by norm_num) (by norm_num) (by norm_num [MAX_RETRIES]),
         H.2 4 (by norm_num) (by norm_num [MAX_RETRIES])⟩

/-- C6: start a feed for "BTC" from the empty state, let its supervisor
exhaust its retries and exit (which removes "BTC" only from the manager's
`active_websockets` map), then deliver a subscription-change event for
"BTC".  The coordinator's `active_feeds` map still holds the stale "BTC"
entry, so `check_coin_subscription` returns early as "already active": no
new connection is spawned (`false`) and the state — zero live connection
tasks — is unchanged.  The claim that the subscription-change event restarts
the feed fails on the code. -/
theorem stale_active_feed_blocks_restart :
    (supervisor_exit (check_coin_subscription ⟨[], [], []⟩ "BTC").1 "BTC").connections = [] ∧
    check_coin_subscription
        (supervisor_exit (check_coin_subscription ⟨[], [], []⟩ "BTC").1 "BTC") "BTC"
      = (⟨["BTC"], [], []⟩, false) := by decide

/-- C7: `check_coin_subscription` (the registry `ensure`) is idempotent and
never an error: if the (uppercased) symbol already has an active-feed entry
it is a no-op — state unchanged, nothing spawned (the Rust function returns
`Ok(())`); if the symbol has no entry in either map, it creates the shutdown
channel, spawns exactly one supervisor task and records the handle in both
maps. -/
theorem ensure_idempotent (st : FeedState) (coin : String) :
    (toUpperStr coin ∈ st.active_feeds → check_coin_subscription st coin = (st, false)) ∧
    (toUpperStr coin ∉ st.active_feeds → toUpperStr coin ∉ st.ws_feeds →
      check_coin_subscription st coin =
        ({ active_feeds := st.active_feeds ++ [toUpperStr coin],
           ws_feeds := st.ws_feeds ++ [toUpperStr coin],
           connections := st.connections ++ [toUpperStr coin] }, true)) := by
  constructor
  · intro h
    unfold check_coin_subscription
    rw [if_pos h]
  · intro h1 h2
    unfold check_coin_subscription start_websocket_for_coin start_trade_feed insertKey
    simp only [toUpperStr_idem]
    rw [if_neg h1, if_neg h2, if_neg h2, if_neg h1]

/-- C7 witness: ensure on an already-active "BTC" is a no-op; ensure on
"btc" from the empty state spawns one connection and records "BTC" in both
maps. -/
theorem ensure_idempotent_witness :
    check_coin_subscription ⟨["BTC"], ["BTC"], ["BTC"]⟩ "BTC"
      = (⟨["BTC"], ["BTC"], ["BTC"]⟩, false) ∧
    check_coin_subscription ⟨[], [], []⟩ "btc" = (⟨["BTC"], ["BTC"], ["BTC"]⟩, true) := by
  constructor
  · exact (ensure_idempotent ⟨["BTC"], ["BTC"], ["BTC"]⟩ "BTC").1 (by decide)
  · have h := (ensure_idempotent ⟨[], [], []⟩ "btc").2 (by decide) (by decide)
    rw [h]
    decide

/-- C8: `stop_trade_feed` fails exactly when no registry entry exists for the
(uppercased) symbol; when an entry exists it sends that entry's shutdown
signal, removes the entry from `active_websockets`, and returns `Ok`. -/
theorem stop_feed_spec (st : FeedState) (coin : String) :
    ((∃ e, (stop_trade_feed st coin).result = .err e) ↔ toUpperStr coin ∉ st.ws_feeds) ∧
    (toUpperStr coin ∈ st.ws_feeds →
      stop_trade_feed st coin =
        ⟨{ st with ws_feeds := st.ws_feeds.erase (toUpperStr coin) },
         [toUpperStr coin], .ok⟩) := by
  unfold stop_trade_feed
  by_cases h : toUpperStr coin ∈ st.ws_feeds <;> simp [h]

/-- C8 witness: stopping "btc" while "BTC" is registered sends the shutdown
signal for "BTC", removes the entry and succeeds. -/
theorem stop_feed_spec_witness :
    stop_trade_feed ⟨[], ["BTC"], ["BTC"]⟩ "btc"
      = ⟨⟨[], [], ["BTC"]⟩, ["BTC"], .ok⟩ := by
  have h := (stop_feed_spec ⟨[], ["BTC"], ["BTC"]⟩ "btc").2 (by decide)
  rw [h]
  decide

/-- C9: every storage, lookup and registry operation keyed by a symbol
canonicalises the key to uppercase, so each behaves identically on `coin`
and on its uppercase form: subscription insert/delete, subscriber lookup,
feed ensure/stop, connection start and the coordinator's active-feed
bookkeeping. -/
theorem symbol_case_insensitive (coin : String) (table : List UserSubscription)
    (st : FeedState) (uid chat : Int) :
    add_subscription table uid chat coin = add_subscription table uid chat (toUpperStr coin) ∧
    remove_subscription table uid coin = remove_subscription table uid (toUpperStr coin) ∧
    get_subscribers_for_coin table coin = get_subscribers_for_coin table (toUpperStr coin) ∧
    check_coin_subscription st coin = check_coin_subscription st (toUpperStr coin) ∧
    start_websocket_for_coin st coin = start_websocket_for_coin st (toUpperStr coin) ∧
    start_trade_feed st coin = start_trade_feed st (toUpperStr coin) ∧
    stop_trade_feed st coin = stop_trade_feed st (toUpperStr coin) := by
  refine ⟨?_, ?_, ?_, ?_, ?_, ?_, ?_⟩ <;>
    simp only [add_subscription, remove_subscription, get_subscribers_for_coin,
      check_coin_subscription, start_websocket_for_coin, start_trade_feed,
      stop_trade_feed, toUpperStr_idem]

/-- C10: the notification labels the trade "BUY" exactly when the trade's
side string is `"B"`; every other side string (empty or arbitrary) is
labelled "SELL". -/
theorem side_label (side : String) :
    (side_text side = "BUY" ↔ side = "B") ∧ (side_text side = "SELL" ↔ side ≠ "B") := by
  unfold side_text
  by_cases h : side = "B" <;> simp [h]

end HlBot
